import Mathlib

/-!
# Verification of the kylelayer JSON-RPC core

A shallow embedding, in Lean 4, of the kylelayer repository's JSON-RPC
engine: the message model and zod shape validators (`src/json-rpc.ts`),
the standard error codes (`src/errors.ts`), the server dispatcher
(`src/server.ts`), the client correlation engine
(`packages/rpc/src/client.ts`), the typed event emitter
(`src/event-emitter.ts`), and the stream transport's framing and
reconnection discipline
(`packages/unix-socket-proxy/src/target-client.ts`).

JavaScript values decoded from JSON are modelled by the inductive `Json`
type; JS truthiness, `'key' in obj`, and `String.prototype.trim` are
modelled explicitly.  Stateful components (the client's pending-request
map, the stream transport's buffer/queue/reconnect counter) are modelled
as explicit state types with one transition function per source method.
-/

/-- A JSON value as produced by `JSON.parse`: the decoded message domain
shared by client and server.  Numbers are modelled as integers (no claim
in this development depends on non-integral numerics). -/
inductive Json where
  | null : Json
  | bool (b : Bool) : Json
  | num (n : Int) : Json
  | str (s : String) : Json
  | arr (elems : List Json) : Json
  | obj (fields : List (String × Json)) : Json

namespace Json

/-- Field lookup on a decoded object: `fields` lists the object's
properties (`JSON.parse` yields at most one property per name). -/
def lookupField (fields : List (String × Json)) (k : String) : Option Json :=
  (fields.find? (fun p => p.1 == k)).map (fun p => p.2)

/-- `v.lookup k` reads property `k`, `none` when absent or when `v` is
not an object. -/
def lookup : Json → String → Option Json
  | .obj fields, k => lookupField fields k
  | _, _ => none

/-- JavaScript truthiness of a decoded JSON value. -/
def truthy : Json → Bool
  | .null => false
  | .bool b => b
  | .num n => n != 0
  | .str s => s != ""
  | .arr _ => true
  | .obj _ => true

/-- The JS test `'id' in v` for decoded values on which it does not
throw (objects and arrays; an array has no `id` property). -/
def hasIdField : Json → Bool
  | .obj fields => fields.any (fun p => p.1 == "id")
  | _ => false

end Json

/-! ## Standard error codes (`packages/rpc/src/errors.ts`)

The constants of the `JsonRpcErrorCodes` object.  (A second, older copy
of `errors.ts` elsewhere in the repository carries `-3600` for
`INVALID_REQUEST`; the canonical copy shipped with the rpc package, the
one every transport and the spec use, is modelled here.) -/

namespace JsonRpcErrorCodes

def PARSE_ERROR : Int := -32700
def INVALID_REQUEST : Int := -32600
def METHOD_NOT_FOUND : Int := -32601
def INVALID_PARAMETERS : Int := -32606
def INTERNAL_SERVER_ERROR : Int := -32603
def RESOURCE_NOT_FOUND : Int := -32004

end JsonRpcErrorCodes

/-! ## Wire-shape validators (`packages/rpc/src/json-rpc.ts`)

Boolean models of the zod schemas.  `z.object` accepts extra keys
(non-strict) and rejects non-objects; `z.any().optional()` places no
constraint on a field; `z.union([z.number(), z.string()])` restricts to
those two primitive shapes. -/

/-- `z.literal('2.0')` applied to the `jsonrpc` property. -/
def isVersionField (o : Option Json) : Bool :=
  match o with
  | some (.str s) => s == "2.0"
  | _ => false

/-- `z.string()` applied to the `method` property. -/
def isStringField (o : Option Json) : Bool :=
  match o with
  | some (.str _) => true
  | _ => false

/-- `z.union([z.number(), z.string()])` applied to the `id` property. -/
def isIdField (o : Option Json) : Bool :=
  match o with
  | some (.num _) => true
  | some (.str _) => true
  | _ => false

/-- `JsonRpcRequestSchema`: an object with `jsonrpc: z.literal('2.0')`,
`method: z.string()`, `params: z.any().optional()`, and
`id: z.union([z.number(), z.string()])`.  The schema's
`.refine((obj) => obj.method !== null)` is vacuous — after parsing,
`method` is a string and never `null` — so it imposes nothing. -/
def jsonRpcRequestOk : Json → Bool
  | .obj fields =>
    isVersionField (Json.lookupField fields "jsonrpc") &&
    isStringField (Json.lookupField fields "method") &&
    isIdField (Json.lookupField fields "id")
  | _ => false

/-- `JsonRpcNotificationSchema`: `.strict()` object with
`jsonrpc: z.literal('2.0')`, `method: z.string()`,
`params: z.any().optional()`, refined by `(o) => o.params !== null`. -/
def jsonRpcNotificationOk : Json → Bool
  | .obj fields =>
    isVersionField (Json.lookupField fields "jsonrpc") &&
    isStringField (Json.lookupField fields "method") &&
    (match Json.lookupField fields "params" with
     | some .null => false
     | _ => true) &&
    fields.all (fun p => p.1 == "jsonrpc" || p.1 == "method" || p.1 == "params")
  | _ => false

/-- The Request shape exactly as claim C8 words it (spec §3): protocol
version literal `"2.0"`, **non-empty** string method, optional params,
id a string or a number. -/
def claimedRequestShape : Json → Bool
  | .obj fields =>
    isVersionField (Json.lookupField fields "jsonrpc") &&
    (match Json.lookupField fields "method" with
     | some (.str m) => m != ""
     | _ => false) &&
    isIdField (Json.lookupField fields "id")
  | _ => false

/-- C4: the standard error-code constants equal exactly the six wire
values the spec fixes: ParseError = -32700, InvalidRequest = -32600,
MethodNotFound = -32601, InvalidParameters = -32606 (non-standard),
InternalServerError = -32603, ResourceNotFound = -32004. -/
theorem errorCodes_match_wire_values :
    JsonRpcErrorCodes.PARSE_ERROR = -32700 ∧
    JsonRpcErrorCodes.INVALID_REQUEST = -32600 ∧
    JsonRpcErrorCodes.METHOD_NOT_FOUND = -32601 ∧
    JsonRpcErrorCodes.INVALID_PARAMETERS = -32606 ∧
    JsonRpcErrorCodes.INTERNAL_SERVER_ERROR = -32603 ∧
    JsonRpcErrorCodes.RESOURCE_NOT_FOUND = -32004 := by
  refine ⟨rfl, rfl, rfl, rfl, rfl, rfl⟩

/-- C8: the code accepts the empty-string method the claim (and the
repository's own test `Request with empty method should fail`) requires
it to reject: `method: z.string()` passes `""` and the refinement
`obj.method !== null` never fires.  Ids keep the claimed behaviour:
boolean, null, and object ids are rejected. -/
theorem requestSchema_accepts_empty_method :
    jsonRpcRequestOk
      (.obj [("jsonrpc", .str "2.0"), ("method", .str ""), ("id", .str "test-id")]) = true ∧
    claimedRequestShape
      (.obj [("jsonrpc", .str "2.0"), ("method", .str ""), ("id", .str "test-id")]) = false ∧
    jsonRpcRequestOk
      (.obj [("jsonrpc", .str "2.0"), ("method", .str "test_method"), ("id", .bool true)]) = false ∧
    jsonRpcRequestOk
      (.obj [("jsonrpc", .str "2.0"), ("method", .str "test_method"), ("id", .null)]) = false ∧
    jsonRpcRequestOk
      (.obj [("jsonrpc", .str "2.0"), ("method", .str "test_method"), ("id", .obj [])]) = false := by
  refine ⟨rfl, rfl, rfl, rfl, rfl⟩

/-! ## Server dispatcher (`packages/rpc/src/server.ts`)

`JsonRpcServer.handleMessage` classifies a decoded value by `'id' in
serverMessage`, shape-validates it, dispatches to a registered handler,
and maps every thrown value to a wire response (or to no response).

Handlers may throw arbitrary JavaScript values; `ThrownM` models them:
instances of the taxonomy root `JsonRpcError` (which
`MethodNotFoundError`, `InvalidParametersError` and every
`CustomServerError` extend) keep their `requestId`/`code`/`message`/
`data` fields, and any other thrown value is modelled by its JS
truthiness together with its `message` property when it has one.

zod's validation-error text (`error.message`) is not reimplemented; it
enters the model as the parameter `zmsg` (for shape failures) and as
the `String` carried by a failing `paramsParse` (for parameter
failures). -/

/-- A request id: `string | number` on the wire. -/
inductive RpcId where
  | num (n : Int) : RpcId
  | str (s : String) : RpcId

/-- The wire value of a request id. -/
def RpcId.toJson : RpcId → Json
  | .num n => .num n
  | .str s => .str s

/-- `error.requestId ? ... : ...` — JS truthiness of a
`number | string | null` request id (`0` and `""` are falsy). -/
def truthyRequestId : Option RpcId → Bool
  | none => false
  | some (.num n) => n != 0
  | some (.str s) => s != ""

/-- A thrown JavaScript value as seen by `handleMessage`'s catch block. -/
inductive ThrownM where
  /-- an instance of `JsonRpcError` (taxonomy errors, incl. subclasses) -/
  | rpcError (requestId : Option RpcId) (code : Int) (message : String) (data : Option Json)
  /-- any other thrown value: its truthiness and optional `.message` -/
  | other (truthy : Bool) (message : Option String)

/-- JS truthiness of the thrown value (`Error` instances are truthy). -/
def ThrownM.isTruthy : ThrownM → Bool
  | .rpcError _ _ _ _ => true
  | .other t _ => t

/-- `(error as any)?.message` of the thrown value. -/
def ThrownM.messageField : ThrownM → Option String
  | .rpcError _ _ m _ => some m
  | .other _ m => m

/-- `new MethodNotFoundError({requestId, method})` (`errors.ts`). -/
def methodNotFoundThrown (requestId : Option RpcId) (method : String) : ThrownM :=
  .rpcError requestId JsonRpcErrorCodes.METHOD_NOT_FOUND
    ("unable to find method " ++ method) none

/-- `new InvalidParametersError({requestId, zodError})` (`errors.ts`). -/
def invalidParametersThrown (requestId : Option RpcId) (zodMessage : String) : ThrownM :=
  .rpcError requestId JsonRpcErrorCodes.INVALID_PARAMETERS
    ("invalid parameters: " ++ zodMessage) none

/-- The error member of an `ErrorResponse`. -/
structure RpcErrorBody where
  code : Int
  message : String
  data : Option Json

/-- A wire response: `SuccessResponse` or `ErrorResponse` (the `id`
field carries the raw wire value, `Json.null` when unknown). -/
inductive RespM where
  | success (id : Json) (result : Json)
  | err (id : Json) (error : RpcErrorBody)

/-- A registered request handler: `paramsSchema.parse` (failure carries
the zod error text) and the handler body (`Except` failure = a thrown
value).  The `params` argument is `none` when the request omitted the
field (`undefined`). -/
structure MethodDefM where
  paramsParse : Option Json → Except String Json
  handler : Json → Except ThrownM Json

/-- A registered notification handler. -/
structure NotifDefM where
  paramsParse : Option Json → Except String Json
  handler : Json → Except ThrownM Unit

/-- A `JsonRpcServer`: its `handlers` and `notifications` registries. -/
structure ServerM where
  handlers : List (String × MethodDefM)
  notifications : List (String × NotifDefM)

/-- `handleRpcRequest`: method lookup (throws `MethodNotFoundError`),
parameter validation (throws `InvalidParametersError`), handler
invocation (its thrown value propagates), success response on return. -/
def handleRpcRequest (s : ServerM) (method : String) (params : Option Json)
    (requestId : RpcId) : Except ThrownM RespM :=
  match s.handlers.find? (fun p => p.1 == method) with
  | none => .error (methodNotFoundThrown (some requestId) method)
  | some (_, d) =>
    match d.paramsParse params with
    | .error zodMessage => .error (invalidParametersThrown (some requestId) zodMessage)
    | .ok p =>
      match d.handler p with
      | .error t => .error t
      | .ok result => .ok (.success requestId.toJson result)

/-- `handleRpcNotification`: like `handleRpcRequest` with
`requestId: null` and no produced response. -/
def handleRpcNotification (s : ServerM) (method : String) (params : Option Json) :
    Except ThrownM Unit :=
  match s.notifications.find? (fun p => p.1 == method) with
  | none => .error (methodNotFoundThrown none method)
  | some (_, d) =>
    match d.paramsParse params with
    | .error zodMessage => .error (invalidParametersThrown none zodMessage)
    | .ok p =>
      match d.handler p with
      | .error t => .error t
      | .ok _ => .ok ()

/-- The catch block of `handleMessage`: a `JsonRpcError` with a truthy
`requestId` keeps its own code/message/data; otherwise a truthy thrown
value addressed to a request is wrapped as `INTERNAL_SERVER_ERROR`
(`message ?? 'an unknown error occurred'`); everything else yields no
response.  `dataId` is the validated message's `id` (`none` for a
notification, mirroring `'id' in data`). -/
def catchThrown (t : ThrownM) (dataId : Option RpcId) : Option RespM :=
  match t with
  | .rpcError requestId code message data =>
    if truthyRequestId requestId then
      some (.err (match requestId with
                  | some i => i.toJson
                  | none => .null)
        { code := code, message := message, data := data })
    else
      if dataId.isSome then
        some (.err (match dataId with
                    | some i => i.toJson
                    | none => .null)
          { code := JsonRpcErrorCodes.INTERNAL_SERVER_ERROR
            message := message
            data := none })
      else none
  | .other truthy message =>
    if truthy && dataId.isSome then
      some (.err (match dataId with
                  | some i => i.toJson
                  | none => .null)
        { code := JsonRpcErrorCodes.INTERNAL_SERVER_ERROR
          message := message.getD "an unknown error occurred"
          data := none })
    else none

/-- The `id` placed on a shape-validation `INVALID_REQUEST` response:
`serverMessage && 'id' in serverMessage && serverMessage?.id ?
serverMessage.id : null`. -/
def shapeFailureId (v : Json) : Json :=
  match v with
  | .obj fields =>
    match Json.lookupField fields "id" with
    | some idv => if idv.truthy then idv else .null
    | none => .null
  | _ => .null

/-- The request id the validated data carries
(guarded by `jsonRpcRequestOk`, so the default is unreachable). -/
def requestIdOf (v : Json) : RpcId :=
  match v.lookup "id" with
  | some (.num n) => .num n
  | some (.str s) => .str s
  | _ => .num 0

/-- The method name the validated data carries. -/
def methodOf (v : Json) : String :=
  match v.lookup "method" with
  | some (.str m) => m
  | _ => ""

/-- `JsonRpcServer.handleMessage`.  `'id' in serverMessage` throws a
`TypeError` on primitives (modelled by `.error ()`); otherwise the value
is validated as a Request (`id` present) or Notification (absent), a
shape failure returns an `INVALID_REQUEST` error response, and a valid
message is dispatched with every thrown value mapped by `catchThrown`. -/
def handleMessage (s : ServerM) (zmsg : Json → String) (v : Json) :
    Except Unit (Option RespM) :=
  match v with
  | .obj _ | .arr _ =>
    if v.hasIdField then
      if jsonRpcRequestOk v then
        match handleRpcRequest s (methodOf v) (v.lookup "params") (requestIdOf v) with
        | .ok resp => .ok (some resp)
        | .error t => .ok (catchThrown t (some (requestIdOf v)))
      else
        .ok (some (.err (shapeFailureId v)
          { code := JsonRpcErrorCodes.INVALID_REQUEST
            message := "invalid JSON RPC request: " ++ zmsg v
            data := none }))
    else
      if jsonRpcNotificationOk v then
        match handleRpcNotification s (methodOf v) (v.lookup "params") with
        | .ok _ => .ok none
        | .error t => .ok (catchThrown t none)
      else
        .ok (some (.err (shapeFailureId v)
          { code := JsonRpcErrorCodes.INVALID_REQUEST
            message := "invalid JSON RPC request: " ++ zmsg v
            data := none }))
  | _ => .error ()

/-- If no field of `fields` is named `k`, lookup misses. -/
theorem lookupField_eq_none_of_not_mem (fields : List (String × Json)) (k : String)
    (h : fields.all (fun p => !(p.1 == k)) = true) :
    Json.lookupField fields k = none := by
  unfold Json.lookupField
  rw [List.find?_eq_none.mpr]
  · rfl
  · intro x hx
    have := List.all_eq_true.mp h x hx
    simpa using this

/-- C2 counterexample: a decoded value with no `id` field and a wrong
protocol version (`jsonrpc: "1.0"`) is a would-be Notification failing
shape validation, yet `handleMessage` returns an `INVALID_REQUEST`
error response with `id: null` — not `null` as the claim states. -/
theorem invalidNotification_gets_error_response :
    handleMessage ⟨[], []⟩ (fun _ => "m0")
        (.obj [("jsonrpc", .str "1.0"), ("method", .str "m")]) =
      .ok (some (.err .null
        { code := JsonRpcErrorCodes.INVALID_REQUEST
          message := "invalid JSON RPC request: m0"
          data := none })) ∧
    handleMessage ⟨[], []⟩ (fun _ => "m0")
        (.obj [("jsonrpc", .str "1.0"), ("method", .str "m")]) ≠ .ok none := by
  constructor
  · rfl
  · intro h
    rw [show handleMessage ⟨[], []⟩ (fun _ => "m0")
        (.obj [("jsonrpc", .str "1.0"), ("method", .str "m")]) =
      .ok (some (.err .null
        { code := JsonRpcErrorCodes.INVALID_REQUEST
          message := "invalid JSON RPC request: m0"
          data := none })) from rfl] at h
    simp at h

/-- C2 amended: for every decoded **object** without an `id` field that
fails notification shape validation, `handleMessage` returns an
`ErrorResponse` with code `INVALID_REQUEST`, id `null`, and the zod
failure text — it does not silently drop the message. -/
theorem invalidNotification_response (s : ServerM) (zmsg : Json → String)
    (fields : List (String × Json))
    (hNoId : Json.hasIdField (.obj fields) = false)
    (hBad : jsonRpcNotificationOk (.obj fields) = false) :
    handleMessage s zmsg (.obj fields) =
      .ok (some (.err .null
        { code := JsonRpcErrorCodes.INVALID_REQUEST
          message := "invalid JSON RPC request: " ++ zmsg (.obj fields)
          data := none })) := by
  have hlook : Json.lookupField fields "id" = none := by
    apply lookupField_eq_none_of_not_mem
    unfold Json.hasIdField at hNoId
    rw [List.any_eq_false] at hNoId
    rw [List.all_eq_true]
    intro x hx
    simpa using hNoId x hx
  unfold handleMessage
  rw [hNoId, hBad]
  simp only [Bool.false_eq_true, if_false]
  simp only [shapeFailureId, hlook]

/-- C2 witness: the amended theorem applied to the wrong-version
notification from the counterexample. -/
theorem invalidNotification_response_witness :
    handleMessage ⟨[], []⟩ (fun _ => "m0")
        (.obj [("jsonrpc", .str "1.0"), ("method", .str "log")]) =
      .ok (some (.err .null
        { code := JsonRpcErrorCodes.INVALID_REQUEST
          message := "invalid JSON RPC request: m0"
          data := none })) :=
  invalidNotification_response ⟨[], []⟩ (fun _ => "m0")
    [("jsonrpc", .str "1.0"), ("method", .str "log")] (by decide) (by decide)

/-- C6 counterexample: a request for registered method `m` whose handler
throws a **falsy** value (e.g. `throw null` / `throw false`) produces no
response at all: the catch block's `if (error && ...)` guard skips the
`INTERNAL_SERVER_ERROR` wrapping and `handleMessage` returns `null`
instead of the claimed error response with the request's id. -/
theorem falsyHandlerThrow_returns_null :
    handleMessage
        ⟨[("m", { paramsParse := fun _ => .ok .null
                  handler := fun _ => .error (.other false none) })], []⟩
        (fun _ => "z")
        (.obj [("jsonrpc", .str "2.0"), ("method", .str "m"), ("id", .num 1)]) =
      .ok none := by
  rfl

/-- C6 amended: a request with a registered method and valid params
whose handler throws a **truthy** value that is not a taxonomy error is
answered with an `INTERNAL_SERVER_ERROR` response carrying the thrown
value's `message` (or the generic fallback) and the original request id;
a falsy thrown value instead yields no response (see the
counterexample). -/
theorem truthyHandlerThrow_wrapped_as_internal_error (s : ServerM)
    (zmsg : Json → String) (v : Json) (pr : String × MethodDefM) (p : Json)
    (msgOpt : Option String)
    (hHasId : Json.hasIdField v = true)
    (hOk : jsonRpcRequestOk v = true)
    (hFind : s.handlers.find? (fun q => q.1 == methodOf v) = some pr)
    (hParse : pr.2.paramsParse (v.lookup "params") = .ok p)
    (hThrow : pr.2.handler p = .error (.other true msgOpt)) :
    handleMessage s zmsg v =
      .ok (some (.err (requestIdOf v).toJson
        { code := JsonRpcErrorCodes.INTERNAL_SERVER_ERROR
          message := msgOpt.getD "an unknown error occurred"
          data := none })) := by
  obtain ⟨nm, d⟩ := pr
  dsimp only at hParse hThrow
  cases v with
  | obj fields =>
    unfold handleMessage
    rw [hHasId, hOk]
    simp only [if_true]
    unfold handleRpcRequest
    rw [hFind]
    dsimp only
    rw [hParse]
    dsimp only
    rw [hThrow]
    simp [catchThrown, ThrownM.isTruthy]
  | null => simp [Json.hasIdField] at hHasId
  | bool b => simp [Json.hasIdField] at hHasId
  | num n => simp [Json.hasIdField] at hHasId
  | str s => simp [Json.hasIdField] at hHasId
  | arr l => simp [Json.hasIdField] at hHasId

/-- C6 witness: a handler that throws the truthy non-Error value
`{message: "boom"}` is wrapped as `INTERNAL_SERVER_ERROR` with that
message and the request id `7`. -/
theorem truthyHandlerThrow_wrapped_witness :
    handleMessage
        ⟨[("m", { paramsParse := fun _ => .ok .null
                  handler := fun _ => .error (.other true (some "boom")) })], []⟩
        (fun _ => "z")
        (.obj [("jsonrpc", .str "2.0"), ("method", .str "m"), ("id", .num 7)]) =
      .ok (some (.err (.num 7)
        { code := JsonRpcErrorCodes.INTERNAL_SERVER_ERROR
          message := "boom"
          data := none })) :=
  truthyHandlerThrow_wrapped_as_internal_error
    ⟨[("m", { paramsParse := fun _ => .ok .null
              handler := fun _ => .error (.other true (some "boom")) })], []⟩
    (fun _ => "z")
    (.obj [("jsonrpc", .str "2.0"), ("method", .str "m"), ("id", .num 7)])
    ("m", { paramsParse := fun _ => .ok .null
            handler := fun _ => .error (.other true (some "boom")) })
    .null (some "boom") (by decide) (by decide) (by rfl) (by rfl) (by rfl)

/-! ## Client correlation engine (`packages/rpc/src/client.ts`)

`JsonRpcClient` tracks one `PendingRequest` per outstanding request id
in `pendingRequests : Map`.  With the default id generator
(`() => this.nextRequestId++`, starting at 1) every call owns a distinct
id, so a call is identified by its request id.  The state records the
map's key set, the set of ids whose `setTimeout` timer is still armed
(created in `call`, cleared by `clearTimeout` on a response match or on
shutdown, consumed when it fires), and one `settled` entry per
invocation of a `PendingRequest`'s `resolve`/`reject`.

`handleResponse` settles a matched call exactly once whichever branch
runs (result validation success → `resolve`, validation failure or error
response → `reject`); the branch choice does not affect completion
counting, so a match is recorded as a single settlement. -/

/-- The mutable per-client state touched by the three competing
completion paths. -/
structure ClientState where
  /-- key set of `this.pendingRequests` -/
  pendingRequests : List Nat
  /-- ids whose per-call `setTimeout` timer is armed (not cleared, not yet fired) -/
  armedTimers : List Nat
  /-- one entry per `resolve`/`reject` invocation, by request id -/
  settled : List Nat
  /-- `this.nextRequestId` -/
  nextRequestId : Nat

/-- Constructor state: empty map, counter at 1. -/
def initClient : ClientState := ⟨[], [], [], 1⟩

/-- `call()` (lines 106–133): `generateId` returns `nextRequestId++`,
a timer is armed, and `pendingRequests.set(requestId, …)` registers the
record (`Map.set` makes the key present; `List.erase` then cons mirrors
the overwrite semantics, vacuous here because the id is fresh). -/
def callRegister (s : ClientState) : ClientState :=
  { pendingRequests := s.nextRequestId :: s.pendingRequests.erase s.nextRequestId
    armedTimers := s.nextRequestId :: s.armedTimers
    settled := s.settled
    nextRequestId := s.nextRequestId + 1 }

/-- `handleResponse` (lines 152–215) for a decoded response carrying id
`rid`: an unmatched id is logged and dropped; a match is deleted from
the map, its timer cleared, and the caller settled (resolved or
rejected) exactly once. -/
def handleResponseEvent (s : ClientState) (rid : Nat) : ClientState :=
  if rid ∈ s.pendingRequests then
    { pendingRequests := s.pendingRequests.erase rid
      armedTimers := s.armedTimers.erase rid
      settled := rid :: s.settled
      nextRequestId := s.nextRequestId }
  else s

/-- The timer armed in `call` (lines 116–122) fires: it can only fire
while armed, fires at most once, and then rejects only if its id is
still registered — the "claim-then-act" check
`if (pendingRequest) { delete; reject }`. -/
def timeoutFire (s : ClientState) (rid : Nat) : ClientState :=
  if rid ∈ s.armedTimers then
    let s1 : ClientState := { s with armedTimers := s.armedTimers.erase rid }
    if rid ∈ s1.pendingRequests then
      { s1 with pendingRequests := s1.pendingRequests.erase rid
                settled := rid :: s1.settled }
    else s1
  else s

/-- `cancelPendingRequests` (lines 249–257), the shutdown drain: every
still-registered call has its timer cleared and is rejected, then the
map is cleared. -/
def cancelPendingRequests (s : ClientState) : ClientState :=
  { pendingRequests := []
    armedTimers := s.pendingRequests.foldl (fun a rid => a.erase rid) s.armedTimers
    settled := s.pendingRequests ++ s.settled
    nextRequestId := s.nextRequestId }

/-- The three completion sources racing against call registration. -/
inductive ClientEvent where
  | call : ClientEvent
  | response (rid : Nat) : ClientEvent
  | timeout (rid : Nat) : ClientEvent
  | shutdown : ClientEvent

/-- One atomic event on the client's single-threaded event loop. -/
def clientStep (s : ClientState) : ClientEvent → ClientState
  | .call => callRegister s
  | .response rid => handleResponseEvent s rid
  | .timeout rid => timeoutFire s rid
  | .shutdown => cancelPendingRequests s

/-- Run an arbitrary interleaving of events from the fresh client. -/
def runClient (tr : List ClientEvent) : ClientState :=
  tr.foldl clientStep initClient

/-- The correlation invariant: the armed-timer set coincides with the
pending map's key set, ids are unique, a registered-and-still-pending
call has settled zero times, a registered-and-removed call exactly
once, and ids the generator never issued have settled zero times. -/
def ClientInv (s : ClientState) : Prop :=
  s.armedTimers = s.pendingRequests ∧
  s.pendingRequests.Nodup ∧
  1 ≤ s.nextRequestId ∧
  (∀ rid ∈ s.pendingRequests, 1 ≤ rid ∧ rid < s.nextRequestId ∧ s.settled.count rid = 0) ∧
  (∀ rid, 1 ≤ rid → rid < s.nextRequestId → rid ∉ s.pendingRequests →
    s.settled.count rid = 1) ∧
  (∀ rid, rid = 0 ∨ s.nextRequestId ≤ rid → s.settled.count rid = 0)

theorem clientInv_init : ClientInv initClient := by
  refine ⟨rfl, List.nodup_nil, le_refl 1, ?_, ?_, ?_⟩
  · intro rid h; simp [initClient] at h
  · intro rid h1 h2 h3
    simp [initClient] at h1 h2
    omega
  · intro rid _; simp [initClient]

/-- Erasing a nodup list's elements from itself, one by one, empties it. -/
theorem foldl_erase_self (l : List Nat) (h : l.Nodup) :
    l.foldl (fun a rid => a.erase rid) l = [] := by
  induction l with
  | nil => rfl
  | cons x t ih =>
    have hx : (x :: t).erase x = t := List.erase_cons_head x t
    have ht : t.Nodup := (List.nodup_cons.mp h).2
    calc (x :: t).foldl (fun a rid => a.erase rid) (x :: t)
        = t.foldl (fun a rid => a.erase rid) ((x :: t).erase x) := rfl
      _ = t.foldl (fun a rid => a.erase rid) t := by rw [hx]
      _ = [] := ih ht

/-- Under the invariant, the timer path and the response path perform
the same abstract state change: both claim the registered entry first
and settle it exactly once. -/
theorem timeoutFire_eq_handleResponseEvent (s : ClientState) (rid : Nat)
    (h : ClientInv s) : timeoutFire s rid = handleResponseEvent s rid := by
  obtain ⟨hat, _, _, _, _, _⟩ := h
  by_cases hmem : rid ∈ s.pendingRequests
  · have harm : rid ∈ s.armedTimers := by rw [hat]; exact hmem
    unfold timeoutFire handleResponseEvent
    rw [if_pos harm, if_pos hmem, if_pos hmem]
  · have harm : rid ∉ s.armedTimers := by rw [hat]; exact hmem
    unfold timeoutFire handleResponseEvent
    rw [if_neg harm, if_neg hmem]

theorem clientInv_call (s : ClientState) (h : ClientInv s) :
    ClientInv (callRegister s) := by
  obtain ⟨hat, hnd, hge, hpend, hdone, hout⟩ := h
  have hfresh : s.nextRequestId ∉ s.pendingRequests := by
    intro hmem
    exact absurd (hpend _ hmem).2.1 (lt_irrefl _)
  have herase : s.pendingRequests.erase s.nextRequestId = s.pendingRequests :=
    List.erase_of_not_mem hfresh
  refine ⟨?_, ?_, ?_, ?_, ?_, ?_⟩
  · show s.nextRequestId :: s.armedTimers =
      s.nextRequestId :: s.pendingRequests.erase s.nextRequestId
    rw [herase, hat]
  · show (s.nextRequestId :: s.pendingRequests.erase s.nextRequestId).Nodup
    rw [herase]
    exact List.nodup_cons.mpr ⟨hfresh, hnd⟩
  · show 1 ≤ s.nextRequestId + 1
    omega
  · intro rid hr
    rw [show (callRegister s).pendingRequests =
      s.nextRequestId :: s.pendingRequests.erase s.nextRequestId from rfl, herase] at hr
    rcases List.mem_cons.mp hr with rfl | hmem
    · exact ⟨hge, Nat.lt_succ_self _, hout _ (Or.inr (le_refl _))⟩
    · obtain ⟨h1, h2, h3⟩ := hpend rid hmem
      exact ⟨h1, Nat.lt_succ_of_lt h2, h3⟩
  · intro rid h1 h2 h3
    rw [show (callRegister s).pendingRequests =
      s.nextRequestId :: s.pendingRequests.erase s.nextRequestId from rfl, herase] at h3
    have hne : rid ≠ s.nextRequestId := fun he => h3 (he ▸ List.mem_cons_self _ _)
    have hnm : rid ∉ s.pendingRequests := fun hm => h3 (List.mem_cons_of_mem _ hm)
    have hlt : rid < s.nextRequestId := by
      have : rid < s.nextRequestId + 1 := h2
      omega
    exact hdone rid h1 hlt hnm
  · intro rid hcase
    rcases hcase with h0 | hbig
    · exact hout rid (Or.inl h0)
    · have hbig' : s.nextRequestId + 1 ≤ rid := hbig
      exact hout rid (Or.inr (by omega))

theorem clientInv_response (s : ClientState) (rid : Nat) (h : ClientInv s) :
    ClientInv (handleResponseEvent s rid) := by
  obtain ⟨hat, hnd, hge, hpend, hdone, hout⟩ := h
  by_cases hmem : rid ∈ s.pendingRequests
  · unfold handleResponseEvent
    rw [if_pos hmem]
    obtain ⟨hrid1, hridlt, hrid0⟩ := hpend rid hmem
    refine ⟨?_, ?_, hge, ?_, ?_, ?_⟩
    · show s.armedTimers.erase rid = s.pendingRequests.erase rid
      rw [hat]
    · exact hnd.erase rid
    · intro r hr
      obtain ⟨hne, hmem'⟩ := (hnd.mem_erase_iff).mp hr
      obtain ⟨h1, h2, h3⟩ := hpend r hmem'
      exact ⟨h1, h2, by rw [List.count_cons_of_ne hne, h3]⟩
    · intro r h1 h2 h3
      by_cases hr : r = rid
      · subst hr
        rw [List.count_cons_self, hrid0]
      · have hnm : r ∉ s.pendingRequests := fun hm =>
          h3 ((hnd.mem_erase_iff).mpr ⟨hr, hm⟩)
        rw [List.count_cons_of_ne hr]
        exact hdone r h1 h2 hnm
    · intro r hcase
      have hne : r ≠ rid := by
        rcases hcase with h0 | hbig
        · omega
        · have hbig' : s.nextRequestId ≤ r := hbig
          omega
      rw [List.count_cons_of_ne hne]
      exact hout r hcase
  · unfold handleResponseEvent
    rw [if_neg hmem]
    exact ⟨hat, hnd, hge, hpend, hdone, hout⟩

theorem clientInv_timeout (s : ClientState) (rid : Nat) (h : ClientInv s) :
    ClientInv (timeoutFire s rid) := by
  rw [timeoutFire_eq_handleResponseEvent s rid h]
  exact clientInv_response s rid h

theorem clientInv_shutdown (s : ClientState) (h : ClientInv s) :
    ClientInv (cancelPendingRequests s) := by
  obtain ⟨hat, hnd, hge, hpend, hdone, hout⟩ := h
  refine ⟨?_, List.nodup_nil, hge, ?_, ?_, ?_⟩
  · show s.pendingRequests.foldl (fun a rid => a.erase rid) s.armedTimers = []
    rw [hat]
    exact foldl_erase_self s.pendingRequests hnd
  · intro r hr
    exact absurd hr (List.not_mem_nil r)
  · intro r h1 h2 _
    show (s.pendingRequests ++ s.settled).count r = 1
    rw [List.count_append]
    by_cases hmem : r ∈ s.pendingRequests
    · rw [List.count_eq_one_of_mem hnd hmem, (hpend r hmem).2.2]
    · rw [List.count_eq_zero.mpr hmem, hdone r h1 h2 hmem]
  · intro r hcase
    show (s.pendingRequests ++ s.settled).count r = 0
    have hnm : r ∉ s.pendingRequests := by
      intro hm
      obtain ⟨h1, h2, _⟩ := hpend r hm
      rcases hcase with h0 | hbig
      · omega
      · have hbig' : s.nextRequestId ≤ r := hbig
        omega
    rw [List.count_append, List.count_eq_zero.mpr hnm, hout r hcase]

theorem clientInv_run (tr : List ClientEvent) : ClientInv (runClient tr) := by
  suffices h : ∀ s, ClientInv s → ClientInv (tr.foldl clientStep s) from
    h initClient clientInv_init
  induction tr with
  | nil => intro s hs; exact hs
  | cons e t ih =>
    intro s hs
    refine ih (clientStep s e) ?_
    cases e with
    | call => exact clientInv_call s hs
    | response rid => exact clientInv_response s rid hs
    | timeout rid => exact clientInv_timeout s rid hs
    | shutdown => exact clientInv_shutdown s hs

/-- C1: over every interleaving of response matches, timeout fires and
shutdown drains, and for every id issued by the default generator, a
registered call settles at most once; a call the engine no longer holds
pending has settled exactly once (by whichever of the three completions
claimed it); and a still-pending call has settled zero times while its
timeout timer is still armed — so exactly one completion remains
guaranteed.  Ids the generator never issued never settle anything. -/
theorem pendingCall_exactly_one_completion (tr : List ClientEvent) (rid : Nat) :
    (runClient tr).settled.count rid ≤ 1 ∧
    (1 ≤ rid → rid < (runClient tr).nextRequestId →
      rid ∉ (runClient tr).pendingRequests →
      (runClient tr).settled.count rid = 1) ∧
    (rid ∈ (runClient tr).pendingRequests →
      (runClient tr).settled.count rid = 0 ∧ rid ∈ (runClient tr).armedTimers) := by
  obtain ⟨hat, hnd, hge, hpend, hdone, hout⟩ := clientInv_run tr
  refine ⟨?_, ?_, ?_⟩
  · by_cases hmem : rid ∈ (runClient tr).pendingRequests
    · rw [(hpend rid hmem).2.2]
      omega
    · by_cases hreg : 1 ≤ rid ∧ rid < (runClient tr).nextRequestId
      · rw [hdone rid hreg.1 hreg.2 hmem]
      · rw [hout rid (by omega)]
        omega
  · intro h1 h2 h3
    exact hdone rid h1 h2 h3
  · intro hmem
    refine ⟨(hpend rid hmem).2.2, ?_⟩
    rw [hat]
    exact hmem

/-- C1 witness: the first call (id 1) matched by its response has
settled exactly once. -/
theorem pendingCall_exactly_one_completion_witness :
    (runClient [.call, .response 1]).settled.count 1 = 1 :=
  (pendingCall_exactly_one_completion [.call, .response 1] 1).2.1
    (by decide) (by decide) (by decide)

/-- `call()` line 122: the timer is armed for
`options.timeout ?? this.defaultRequestTimeout` milliseconds. -/
def callTimerDelay (optionsTimeout : Option Nat) (defaultRequestTimeout : Nat) : Nat :=
  optionsTimeout.getD defaultRequestTimeout

/-- `call()` line 120: the rejection built when the timer fires —
`` `Request ${requestId} timed out after ${this.defaultRequestTimeout}ms` ``.
The duration interpolated is `this.defaultRequestTimeout`, not the
per-call `options.timeout` the timer was actually armed with. -/
def timeoutRejectMessage (requestId : Nat) (defaultRequestTimeout : Nat) : String :=
  "Request " ++ toString requestId ++ " timed out after " ++
    toString defaultRequestTimeout ++ "ms"

/-- C5: evaluated at the failing input (per-call `timeout: 100` against
`defaultRequestTimeout` 30000, request id 1).  The timer is armed for
100 ms and, firing while the call is registered, removes the
`PendingCall` and rejects it exactly once — a response arriving after
the fire is dropped, so a handler replying at `T + ε` cannot resolve the
call.  But the rejection message reads "timed out after 30000ms": it
names the default timeout, not the elapsed per-call duration `T = 100`
the claim (and spec §4.3) require. -/
theorem timeoutMessage_names_default_not_elapsed :
    callTimerDelay (some 100) 30000 = 100 ∧
    timeoutRejectMessage 1 30000 = "Request 1 timed out after 30000ms" ∧
    timeoutRejectMessage 1 30000 ≠ "Request 1 timed out after 100ms" ∧
    (runClient [.call, .timeout 1]).pendingRequests = [] ∧
    (runClient [.call, .timeout 1]).settled = [1] ∧
    (runClient [.call, .timeout 1, .response 1]).settled = [1] := by
  refine ⟨rfl, by decide, by decide, by decide, by decide, by decide⟩

/-! ## Typed event emitter (`packages/rpc/src/event-emitter.ts`)

`IsoEventEmitter` keeps `callbacks : Record<event, Array<callback>>`.
A key may be absent (`undefined`, falsy) or hold an array (an empty
array is truthy in JS).  Callbacks are modelled as opaque tokens; the
record is an association list with JS assignment (`callbacks[event] = v`)
replacing the existing binding or adding one. -/

/-- The `callbacks` record: event name → registered callback array,
absent key = `undefined`. -/
abbrev EmitterState := List (String × List Nat)

/-- `this.callbacks[event]` (`undefined` when the key is absent). -/
def callbacksOf (st : EmitterState) (event : String) : Option (List Nat) :=
  (st.find? (fun p => p.1 == event)).map (fun p => p.2)

/-- `this.callbacks[event] = v`: JS property assignment. -/
def setCallbacks (st : EmitterState) (event : String) (v : List Nat) : EmitterState :=
  if (st.find? (fun p => p.1 == event)).isSome then
    st.map (fun p => if p.1 == event then (event, v) else p)
  else
    st ++ [(event, v)]

/-- `unsubscribeAll(event)`: if the key holds an array, remember its
length, replace it with `[]`, and return the remembered count;
otherwise return 0.  (Every operation in the body is total: the method
never throws.) -/
def unsubscribeAll (st : EmitterState) (event : String) : Nat × EmitterState :=
  match callbacksOf st event with
  | some l => (l.length, setCallbacks st event [])
  | none => (0, st)

/-- `listenerCount(event)`: `this.callbacks[event]?.length ?? 0`. -/
def listenerCount (st : EmitterState) (event : String) : Nat :=
  ((callbacksOf st event).map List.length).getD 0

/-- `find?` steps over an element failing the predicate. -/
theorem find?_cons_false {a : Type} (p : a → Bool) (x : a) (l : List a)
    (h : p x = false) : List.find? p (x :: l) = List.find? p l := by
  simp [List.find?_cons, h]

/-- `find?` stops at an element satisfying the predicate. -/
theorem find?_cons_true {a : Type} (p : a → Bool) (x : a) (l : List a)
    (h : p x = true) : List.find? p (x :: l) = some x := by
  simp [List.find?_cons, h]

/-- Property assignment makes the assigned value readable back. -/
theorem find?_setCallbacks (st : EmitterState) (e : String) (v : List Nat) :
    List.find? (fun p => p.1 == e) (setCallbacks st e v) = some (e, v) := by
  unfold setCallbacks
  by_cases h : (List.find? (fun p => p.1 == e) st).isSome
  · rw [if_pos h]
    induction st with
    | nil => simp at h
    | cons q t ih =>
      cases hq : (q.1 == e) with
      | true =>
        simp only [List.map_cons, if_pos hq]
        exact find?_cons_true (fun p => p.1 == e)
          (e, v) (t.map fun p => if p.1 == e then (e, v) else p) (by simp)
      | false =>
        simp only [List.map_cons, hq, Bool.false_eq_true, if_false]
        rw [find?_cons_false (fun p => p.1 == e)
          q (t.map fun p => if p.1 == e then (e, v) else p) hq]
        apply ih
        rw [find?_cons_false (fun p => p.1 == e) q t hq] at h
        exact h
  · rw [if_neg h]
    rw [Option.not_isSome_iff_eq_none] at h
    induction st with
    | nil =>
      rw [List.nil_append]
      exact find?_cons_true (fun p => p.1 == e) (e, v) [] (by simp)
    | cons q t ih =>
      have hqb : (q.1 == e) = false := by
        cases hq2 : (q.1 == e) with
        | false => rfl
        | true =>
          rw [find?_cons_true (fun p => p.1 == e) q t hq2] at h
          exact absurd h (Option.some_ne_none q)
      rw [List.cons_append, find?_cons_false (fun p => p.1 == e) q (t ++ [(e, v)]) hqb]
      apply ih
      rw [find?_cons_false (fun p => p.1 == e) q t hqb] at h
      exact h

/-- C9: for every record state and event name, after one
`unsubscribeAll` the key holds the empty array, so a second
`unsubscribeAll` returns 0 and `listenerCount` reads 0; no call throws
(both operations are total functions of the state). -/
theorem unsubscribeAll_idempotent (st : EmitterState) (event : String) :
    (unsubscribeAll (unsubscribeAll st event).2 event).1 = 0 ∧
    listenerCount (unsubscribeAll st event).2 event = 0 := by
  cases hcb : callbacksOf st event with
  | none =>
    have h1 : unsubscribeAll st event = (0, st) := by
      unfold unsubscribeAll
      rw [hcb]
    rw [h1]
    constructor
    · show (unsubscribeAll st event).1 = 0
      rw [h1]
    · show listenerCount st event = 0
      unfold listenerCount
      rw [hcb]
      rfl
  | some l =>
    have h1 : unsubscribeAll st event = (l.length, setCallbacks st event []) := by
      unfold unsubscribeAll
      rw [hcb]
    have hset : callbacksOf (setCallbacks st event []) event = some [] := by
      unfold callbacksOf
      rw [find?_setCallbacks]
      rfl
    rw [h1]
    constructor
    · show (unsubscribeAll (setCallbacks st event []) event).1 = 0
      unfold unsubscribeAll
      rw [hset]
      rfl
    · show listenerCount (setCallbacks st event []) event = 0
      unfold listenerCount
      rw [hset]
      rfl

/-! ## Stream transport framing and reconnection
(`packages/unix-socket-proxy/src/target-client.ts`)

`TargetClient.handleData` appends each chunk to `this.buffer`, splits on
`'\n'`, keeps the final (possibly incomplete) fragment as the new
buffer, and delivers `message.trim()` to `processResponse` for every
complete line whose trimmed form is non-empty.  `processResponse` shifts
the FIFO `messageQueue` and resolves the shifted entry with the
response.  Strings are modelled as `List Char`. -/

/-- The whitespace class removed by `String.prototype.trim` (ASCII
whitespace, line terminators, and the no-break space). -/
def isJsWhitespace (c : Char) : Bool :=
  c == ' ' || c == '\t' || c == '\n' || c == '\r' ||
  c == '\x0b' || c == '\x0c' || c == ' '

/-- `message.trim()`: drop the whitespace run at each end. -/
def jsTrim (s : List Char) : List Char :=
  ((s.dropWhile isJsWhitespace).reverse.dropWhile isJsWhitespace).reverse

/-- `buffer.split('\n')` for the single-character separator: JS always
returns at least one (possibly empty) piece. -/
def splitNl : List Char → List (List Char)
  | [] => [[]]
  | c :: rest =>
    if c = '\n' then [] :: splitNl rest
    else
      match splitNl rest with
      | [] => [[c]]
      | h :: t => (c :: h) :: t

/-- `handleData(data)`: returns the new buffer
(`messages.pop() || ''`) and the trimmed non-empty complete lines
handed to `processResponse`, in order. -/
def handleData (buffer data : List Char) : List Char × List (List Char) :=
  let messages := splitNl (buffer ++ data)
  (messages.getLast?.getD [],
   (messages.dropLast.filter (fun m => !(jsTrim m).isEmpty)).map jsTrim)

/-- `processResponse(response)`: `this.messageQueue.shift()`; a shifted
entry is resolved with the response, an empty queue only logs. -/
def processResponse (queue : List Nat) : List Nat × Option Nat :=
  match queue with
  | [] => ([], none)
  | p :: rest => (rest, some p)

/-- The `for (const message of messages)` loop's effect on the queue:
one `processResponse` shift per delivered message. -/
def runResponses (msgs : List (List Char)) (queue : List Nat) : List Nat :=
  match msgs with
  | [] => queue
  | _ :: ms => runResponses ms (processResponse queue).1

/-- Feeding a sequence of chunks through `handleData`, accumulating the
delivered messages. -/
def feedChunks (buffer : List Char) (chunks : List (List Char)) :
    List Char × List (List Char) :=
  chunks.foldl
    (fun acc ch =>
      let r := handleData acc.1 ch
      (r.1, acc.2 ++ r.2))
    (buffer, [])

theorem dropWhile_dropWhile (p : Char → Bool) (l : List Char) :
    (l.dropWhile p).dropWhile p = l.dropWhile p := by
  induction l with
  | nil => rfl
  | cons c t ih =>
    cases hc : p c with
    | true => simp [List.dropWhile_cons, hc, ih]
    | false => simp [List.dropWhile_cons, hc]

theorem dropWhile_head_false (p : Char → Bool) (l : List Char) (c : Char)
    (t : List Char) (h : l.dropWhile p = c :: t) : p c = false := by
  induction l with
  | nil => simp [List.dropWhile] at h
  | cons x xs ih =>
    rw [List.dropWhile_cons] at h
    cases hx : p x with
    | true =>
      rw [if_pos hx] at h
      exact ih h
    | false =>
      rw [if_neg (by simp [hx])] at h
      injection h with h1 _
      subst h1
      exact hx

theorem dropWhile_is_tail (p : Char → Bool) (l : List Char) :
    ∃ s, s ++ l.dropWhile p = l := by
  induction l with
  | nil => exact ⟨[], rfl⟩
  | cons x xs ih =>
    cases hx : p x with
    | true =>
      obtain ⟨s, hs⟩ := ih
      refine ⟨x :: s, ?_⟩
      rw [List.dropWhile_cons, if_pos hx, List.cons_append, hs]
    | false =>
      refine ⟨[], ?_⟩
      rw [List.dropWhile_cons, if_neg (by simp [hx]), List.nil_append]

/-- A trimmed string has no leading whitespace left to drop. -/
theorem jsTrim_dropWhile (l : List Char) :
    (jsTrim l).dropWhile isJsWhitespace = jsTrim l := by
  cases hr : jsTrim l with
  | nil => rfl
  | cons c t =>
    have hstep : ((l.dropWhile isJsWhitespace).reverse.dropWhile isJsWhitespace).reverse
        = c :: t := hr
    obtain ⟨s, hs⟩ := dropWhile_is_tail isJsWhitespace (l.dropWhile isJsWhitespace).reverse
    have ha : l.dropWhile isJsWhitespace = (c :: t) ++ s.reverse := by
      have h2 := congrArg List.reverse hs
      rw [List.reverse_append, List.reverse_reverse] at h2
      rw [hstep] at h2
      exact h2.symm
    have hpc : isJsWhitespace c = false := by
      apply dropWhile_head_false isJsWhitespace l c (t ++ s.reverse)
      rw [ha, List.cons_append]
    rw [List.dropWhile_cons, if_neg (by simp [hpc])]

/-- C10 helper: `trim` is idempotent. -/
theorem jsTrim_idem (l : List Char) : jsTrim (jsTrim l) = jsTrim l := by
  show (((jsTrim l).dropWhile isJsWhitespace).reverse.dropWhile isJsWhitespace).reverse
      = jsTrim l
  rw [jsTrim_dropWhile]
  have hrev : (jsTrim l).reverse
      = (l.dropWhile isJsWhitespace).reverse.dropWhile isJsWhitespace := by
    unfold jsTrim
    rw [List.reverse_reverse]
  rw [hrev, dropWhile_dropWhile]
  rfl

/-- The loop shifts the queue once per delivered message. -/
theorem runResponses_drop (msgs : List (List Char)) (queue : List Nat) :
    runResponses msgs queue = queue.drop msgs.length := by
  induction msgs generalizing queue with
  | nil => rfl
  | cons m ms ih =>
    show runResponses ms (processResponse queue).1 = queue.drop (ms.length + 1)
    cases queue with
    | nil =>
      rw [show (processResponse ([] : List Nat)).1 = [] from rfl, ih]
      simp
    | cons p rest =>
      rw [show (processResponse (p :: rest)).1 = rest from rfl, ih]
      rfl

/-- C10: every message `handleData` delivers to `processResponse` is
trimmed and non-empty; the FIFO queue is shifted exactly once per
delivered message (so a line that is empty or whitespace-only — e.g.
one produced by consecutive delimiters — never consumes a pending
entry); and the number of deliveries equals the number of complete
lines with non-whitespace content. -/
theorem handleData_delivers_trimmed_nonEmpty (buffer data : List Char)
    (queue : List Nat) :
    (∀ m ∈ (handleData buffer data).2, jsTrim m = m ∧ m ≠ []) ∧
    runResponses (handleData buffer data).2 queue =
      queue.drop (handleData buffer data).2.length ∧
    (handleData buffer data).2.length =
      (splitNl (buffer ++ data)).dropLast.countP (fun m => !(jsTrim m).isEmpty) := by
  refine ⟨?_, runResponses_drop _ _, ?_⟩
  · intro m hm
    unfold handleData at hm
    obtain ⟨l, hl, hlm⟩ := List.mem_map.mp hm
    obtain ⟨-, hpred⟩ := List.mem_filter.mp hl
    have hne : jsTrim l ≠ [] := by
      intro hempty
      rw [hempty] at hpred
      simp at hpred
    constructor
    · rw [← hlm, jsTrim_idem]
    · rw [← hlm]
      exact hne
  · unfold handleData
    rw [List.length_map, ← List.countP_eq_length_filter]

/-- C10 witness: the chunk `"  x \n\n"` on an empty buffer delivers
exactly the single trimmed message `"x"`, consuming one queue entry;
the whitespace-only second line consumes nothing. -/
theorem handleData_delivers_trimmed_nonEmpty_witness :
    jsTrim ("x".toList) = "x".toList ∧ "x".toList ≠ [] ∧
    (handleData [] ("  x \n\n".toList)).2 = ["x".toList] ∧
    runResponses (handleData [] ("  x \n\n".toList)).2 [4, 7] = [7] := by
  have h := handleData_delivers_trimmed_nonEmpty [] ("  x \n\n".toList) [4, 7]
  have hmem : "x".toList ∈ (handleData [] ("  x \n\n".toList)).2 := by decide
  obtain ⟨h1, h2⟩ := h.1 ("x".toList) hmem
  exact ⟨h1, h2, by decide, by decide⟩

/-- C3 counterexample: chunks `"A\nB\nC"`, `"D"`, `"\n"` do **not**
produce the four messages `A, B, C, D` the claim describes: no
delimiter ever separates `C` from `D`, so the framing (correctly, per
its own buffering rule) emits three messages, the third being `CD`. -/
theorem framing_scenario_not_four_messages :
    (feedChunks [] [("A\nB\nC".toList), ("D".toList), ("\n".toList)]).2 ≠
      [("A".toList), ("B".toList), ("C".toList), ("D".toList)] := by
  decide

/-- C3 amended: the scenario emits exactly three framed messages
`A`, `B`, `CD`, in that order — `A` and `B` from the first chunk
(`C` stays buffered), nothing from the second, and `CD` when the third
chunk's newline completes the buffered line. -/
theorem framing_scenario_three_messages :
    handleData [] ("A\nB\nC".toList) = (("C".toList), [("A".toList), ("B".toList)]) ∧
    handleData ("C".toList) ("D".toList) = (("CD".toList), []) ∧
    handleData ("CD".toList) ("\n".toList) = ([], [("CD".toList)]) ∧
    (feedChunks [] [("A\nB\nC".toList), ("D".toList), ("\n".toList)]).2 =
      [("A".toList), ("B".toList), ("CD".toList)] := by
  refine ⟨by decide, by decide, by decide, by decide⟩

/-! ### Reconnection (`TargetClient.scheduleReconnect`, lines 215–234)

`scheduleReconnect` checks the cap first: at
`reconnectAttempts >= maxReconnectAttempts` it emits
`maxReconnectAttemptsReached` and schedules nothing; otherwise it
increments the counter and arms a timer for
`reconnectDelay * reconnectAttempts` (the incremented value).
`handleConnection` (line 152) resets `reconnectAttempts` to 0 on every
successful connect. -/

/-- What one `scheduleReconnect` call produces. -/
inductive ReconnectOutcome where
  /-- `emit('maxReconnectAttemptsReached')`, no timer armed -/
  | maxAttemptsReached : ReconnectOutcome
  /-- a reconnect timer armed for `delayMs` milliseconds -/
  | scheduled (delayMs : Nat) : ReconnectOutcome
deriving DecidableEq

/-- `scheduleReconnect()`: new `reconnectAttempts` value and outcome. -/
def scheduleReconnect (maxReconnectAttempts reconnectDelay attempts : Nat) :
    Nat × ReconnectOutcome :=
  if maxReconnectAttempts ≤ attempts then
    (attempts, .maxAttemptsReached)
  else
    (attempts + 1, .scheduled (reconnectDelay * (attempts + 1)))

/-- `handleConnection()`: `this.reconnectAttempts = 0`. -/
def handleConnectionAttempts (_ : Nat) : Nat := 0

/-- The counter after `k` consecutive disconnects/connect failures
(each invoking `scheduleReconnect`) since the last successful connect. -/
def attemptsAfterFailures (maxReconnectAttempts reconnectDelay : Nat) : Nat → Nat
  | 0 => 0
  | k + 1 =>
    (scheduleReconnect maxReconnectAttempts reconnectDelay
      (attemptsAfterFailures maxReconnectAttempts reconnectDelay k)).1

theorem attemptsAfterFailures_eq_min (maxA d k : Nat) :
    attemptsAfterFailures maxA d k = min k maxA := by
  induction k with
  | zero => simp [attemptsAfterFailures]
  | succ k ih =>
    unfold attemptsAfterFailures scheduleReconnect
    rw [ih]
    by_cases h : maxA ≤ min k maxA
    · rw [if_pos h]
      omega
    · rw [if_neg h]
      omega

/-- C7: after `n` consecutive failures since the last successful
connect, the next failure below the cap schedules the `(n+1)`-th
attempt after `reconnectDelay × (n+1)` — linear back-off with the n-th
consecutive attempt delayed `reconnectDelay × n`; once the counter has
reached `maxReconnectAttempts`, the next failure emits the terminal
`maxReconnectAttemptsReached` signal and schedules nothing; and a
successful connect resets the counter to zero. -/
theorem reconnect_linear_backoff (maxA d n : Nat) :
    (n < maxA →
      scheduleReconnect maxA d (attemptsAfterFailures maxA d n) =
        (n + 1, .scheduled (d * (n + 1)))) ∧
    (maxA ≤ n →
      scheduleReconnect maxA d (attemptsAfterFailures maxA d n) =
        (maxA, .maxAttemptsReached)) ∧
    handleConnectionAttempts (attemptsAfterFailures maxA d n) = 0 := by
  refine ⟨?_, ?_, rfl⟩
  · intro h
    rw [attemptsAfterFailures_eq_min, Nat.min_eq_left (Nat.le_of_lt h)]
    unfold scheduleReconnect
    rw [if_neg (by omega)]
  · intro h
    rw [attemptsAfterFailures_eq_min, Nat.min_eq_right h]
    unfold scheduleReconnect
    rw [if_pos (le_refl maxA)]

/-- C7 witness: with `maxReconnectAttempts = 5` and
`reconnectDelay = 1000`, the third consecutive attempt is scheduled
after 3000 ms, and after five failures the sixth emits the terminal
signal. -/
theorem reconnect_linear_backoff_witness :
    scheduleReconnect 5 1000 (attemptsAfterFailures 5 1000 2) =
      (3, .scheduled 3000) ∧
    scheduleReconnect 5 1000 (attemptsAfterFailures 5 1000 5) =
      (5, .maxAttemptsReached) :=
  ⟨(reconnect_linear_backoff 5 1000 2).1 (by decide),
   (reconnect_linear_backoff 5 1000 5).2.1 (by decide)⟩
